import Mathlib

/-!
# jsonrpc2-ws — verification of the message engine, client bookkeeping and heartbeat

Shallow embedding of the repository's source (src/src/Socket.ts: the shared
`MessageHandler` engine plus `common.ts` helpers; src/src/server.ts: the
`Server`'s own message path and the `Client`).  JavaScript values that can
appear in a parsed JSON frame are modelled by `Json`; an absent object field
(JS `undefined`) is `Option.none`.  JSON numbers are modelled as integers
(ids and error codes in this protocol are integral).
-/

/-- A parsed JSON value (JS `undefined` is represented outside this type, as
`Option Json = none`). -/
inductive Json where
  | null
  | bool (b : Bool)
  | num (n : Int)
  | str (s : String)
  | arr (elems : List Json)
  | obj (members : List (String × Json))
deriving Repr

mutual

/-- Structural equality test for `Json` (written by hand: `deriving
DecidableEq` does not handle the nested `List` occurrences). -/
def Json.beq : Json → Json → Bool
  | .null, .null => true
  | .bool a, .bool b => a == b
  | .num a, .num b => a == b
  | .str a, .str b => a == b
  | .arr a, .arr b => Json.beqList a b
  | .obj a, .obj b => Json.beqMembers a b
  | _, _ => false

/-- Elementwise `Json.beq` on array elements. -/
def Json.beqList : List Json → List Json → Bool
  | [], [] => true
  | a :: as, b :: bs => Json.beq a b && Json.beqList as bs
  | _, _ => false

/-- Elementwise `Json.beq` on object members. -/
def Json.beqMembers : List (String × Json) → List (String × Json) → Bool
  | [], [] => true
  | (k, v) :: as, (l, w) :: bs => k == l && Json.beq v w && Json.beqMembers as bs
  | _, _ => false

end

mutual

theorem Json.beq_iff : ∀ (a b : Json), Json.beq a b = true ↔ a = b
  | .null, b => by cases b <;> simp [Json.beq]
  | .bool x, b => by cases b <;> simp [Json.beq]
  | .num x, b => by cases b <;> simp [Json.beq]
  | .str x, b => by cases b <;> simp [Json.beq]
  | .arr xs, b => by cases b <;> simp [Json.beq, Json.beqList_iff xs]
  | .obj xs, b => by cases b <;> simp [Json.beq, Json.beqMembers_iff xs]

theorem Json.beqList_iff : ∀ (as bs : List Json), Json.beqList as bs = true ↔ as = bs
  | [], bs => by cases bs <;> simp [Json.beqList]
  | a :: as, bs => by
      cases bs <;> simp [Json.beqList, Json.beq_iff a, Json.beqList_iff as]

theorem Json.beqMembers_iff :
    ∀ (as bs : List (String × Json)), Json.beqMembers as bs = true ↔ as = bs
  | [], bs => by cases bs <;> simp [Json.beqMembers]
  | (k, v) :: as, bs => by
      cases bs with
      | nil => simp [Json.beqMembers]
      | cons b bs =>
          cases b
          simp [Json.beqMembers, Json.beq_iff v, Json.beqMembers_iff as, and_assoc]

end

instance : DecidableEq Json := fun a b => decidable_of_iff _ (Json.beq_iff a b)

/-- JS property read `v[k]`: the field of an object literal, `undefined`
(i.e. `none`) on anything else (arrays and primitives have none of the
property names this code reads). -/
def jsGet : Json → String → Option Json
  | Json.obj ms, k => ms.lookup k
  | _, _ => none

/-- JS `k in v` for the string keys this code tests, on the object-typed
values that reach such a test (`"id" in call`, `"params" in call`). -/
def hasKey (v : Json) (k : String) : Bool :=
  (jsGet v k).isSome

/-- JS truthiness of a possibly-undefined value: `undefined`, `null`,
`false`, `0` and `""` are falsy. -/
def truthy : Option Json → Bool
  | none => false
  | some Json.null => false
  | some (Json.bool b) => b
  | some (Json.num n) => decide (n ≠ 0)
  | some (Json.str s) => decide (s ≠ "")
  | some (Json.arr _) => true
  | some (Json.obj _) => true

/-- JS `typeof v === "object"`: true for `null`, arrays and objects. -/
def isObjType : Json → Bool
  | Json.null => true
  | Json.arr _ => true
  | Json.obj _ => true
  | _ => false

/-- JS `typeof v === "string"` of a possibly-undefined value. -/
def isStringVal : Option Json → Bool
  | some (Json.str _) => true
  | _ => false

/-- common.ts `errorCodeMap`: default message per JSON-RPC error code. -/
def errorCodeMap (code : Int) : Option String :=
  if code = -32700 then some "Parse error"
  else if code = -32600 then some "Invalid Request"
  else if code = -32601 then some "Method not found"
  else if code = -32602 then some "Invalid params"
  else if code = -32603 then some "Internal error"
  else if code = -32000 then some "Server error"
  else none

/-- common.ts `createError(code, message?, data?)`: `message` falls back to
the catalogue (and then to "Server error") when absent, null or empty
(JS `||`); `data` is attached only when it is not `undefined`. -/
def createError (code : Int) (message : Option String) (data : Option Json) : Json :=
  let msg :=
    match message with
    | some m => if m = "" then (errorCodeMap code).getD "Server error" else m
    | none => (errorCodeMap code).getD "Server error"
  Json.obj ([("code", Json.num code), ("message", Json.str msg)] ++
    (match data with
     | some d => [("data", d)]
     | none => []))

/-- common.ts `isResponse(call)`: `"id" in call && ("result" in call || "error" in call)`. -/
def isResponseCall (call : Json) : Bool :=
  hasKey call "id" && (hasKey call "result" || hasKey call "error")

/-- common.ts `isSuccessResponse(response)`: `"result" in response && response.id !== null`. -/
def isSuccessResponseCall (response : Json) : Bool :=
  hasKey response "result" && !(jsGet response "id" == some Json.null)

/-- `VERSION_CHECK_MODE` (Socket.ts / server.ts).  A `Client` whose config
leaves `jsonrpcVersionCheck` undefined behaves exactly as `ignore` (both
strict-mode and loose-mode equality tests fail on `undefined`), so the
undefined case needs no fourth constructor. -/
inductive VcMode where
  | strict
  | loose
  | ignore
deriving DecidableEq, Repr

/-- The engine's / server's version-check condition on `call.jsonrpc`:
`call.jsonrpc !== "2.0" && (mode === STRICT || (mode === LOOSE && call.jsonrpc !== undefined))`. -/
def versionFails (mode : VcMode) (v : Option Json) : Bool :=
  decide (v ≠ some (Json.str "2.0")) &&
    (decide (mode = VcMode.strict) ||
      (decide (mode = VcMode.loose) && decide (v ≠ none)))

/-- What a thrown JS exception looks like to the `catch` block:
an `Error` instance (name and message), or any other thrown value. -/
inductive Exn where
  | jsError (name message : String)
  | value (v : Json)

/-- A handler's behaviour on given `params` (the awaited outcome): it
returns a value (`ret none` is a JS `undefined` return) or throws. -/
inductive Outcome where
  | ret (v : Option Json)
  | exn (e : Exn)

/-- The method registry (`methods: Map<string, MethodFunction>`), as the
lookup function it is used through.  The `socket` argument of a handler is
dropped: no claim depends on it and it never influences the wire output. -/
def Methods : Type := String → Option (Option Json → Outcome)

/-- A response envelope under construction (`const res: Response = {jsonrpc:
"2.0", id: ...}` then possibly `res.result = ...` or `res.error = ...`).
The constant `jsonrpc: "2.0"` member is implicit. -/
structure Response where
  id : Json
  result : Option Json := none
  error : Option Json := none
deriving DecidableEq, Repr

/-- The events `MessageHandler._processCall` can emit, in emission order. -/
inductive Event where
  | response (call : Json)
  | method_response (call : Json)
  | error_response (call : Json)
  | notification_error (err : Json)
deriving DecidableEq, Repr

/-- Result of one `_processCall`: `crash` when the JS code throws a
`TypeError` (the very first line reads `call.id`, which throws when the
parsed item is `null`), otherwise the emitted events and the optional
response. -/
inductive ProcOut where
  | crash
  | done (events : List Event) (resp : Option Response)
deriving DecidableEq, Repr

/-- A response that carries only an error (`res.error = e`). -/
def errResp (id : Json) (e : Json) : Response :=
  { id := id, error := some e }

/-- A response that carries only a result (`res.result = v`). -/
def okResp (id : Json) (v : Json) : Response :=
  { id := id, result := some v }

/-- The params validation of the shared engine (Socket.ts line 173):
`"params" in call && (typeof call.params !== "object" || call.params === null)`. -/
def paramsRejectedByEngine (call : Json) : Bool :=
  hasKey call "params" &&
    (match jsGet call "params" with
     | some p => !(isObjType p) || decide (p = Json.null)
     | none => true)

/-- The params validation of the server's own path (server.ts line 283):
`typeof call.params !== "object" || call.params === null` — no presence
guard, so an absent `params` (JS `undefined`) is also rejected. -/
def paramsRejectedByServer (call : Json) : Bool :=
  match jsGet call "params" with
  | some p => !(isObjType p) || decide (p = Json.null)
  | none => true

/-- The registry lookup and handler invocation shared verbatim by
`MessageHandler._processCall` and `Server._processCall` (their final
`if (methods.has ...) ... try { res.result = await handler(...) || null ... }
catch ...` blocks are textually identical): the optional response. -/
def dispatchCall (methods : Methods) (m : String) (reqId : Option Json) (resId : Json)
    (p : Option Json) : Option Response :=
  match methods m with
  | none => some (errResp resId (createError (-32601) none none))
  | some handler =>
    match handler p with
    | Outcome.ret v =>
      let rv := if truthy v then v.getD Json.null else Json.null
      if reqId = none then none else some (okResp resId rv)
    | Outcome.exn e =>
      if reqId = none then none
      else
        let errv :=
          match e with
          | Exn.jsError n msg => createError (-32000) (some n) (some (Json.str msg))
          | Exn.value v => v
        some (errResp resId errv)

/-- `MessageHandler._processCall` (src/src/Socket.ts lines 117-200),
translated branch for branch. -/
def MessageHandler.processCall (mode : VcMode) (methods : Methods) (call : Json) : ProcOut :=
  if call = Json.null then ProcOut.crash
  else
  let reqId := jsGet call "id"
  let resId := reqId.getD Json.null
  if ¬ isObjType call then
    ProcOut.done [] (some (errResp resId (createError (-32600) none none)))
  else if versionFails mode (jsGet call "jsonrpc") then
    ProcOut.done [] (some (errResp resId
      (createError (-32600) none (some (Json.str "Invalid JSON-RPC Version")))))
  else if isResponseCall call then
    if jsGet call "id" ≠ some Json.null then
      ProcOut.done [Event.response call, Event.method_response call] none
    else if ¬ truthy (jsGet call "error") then
      ProcOut.done [Event.response call]
        (some (errResp resId (createError (-32600) none none)))
    else
      let err := (jsGet call "error").getD Json.null
      if jsGet err "code" = some (Json.num (-32700)) ∨ jsGet err "code" = some (Json.num (-32600)) then
        ProcOut.done [Event.response call, Event.error_response call] none
      else
        ProcOut.done [Event.response call, Event.error_response call,
          Event.notification_error err] none
  else if ¬ truthy (jsGet call "method") then
    ProcOut.done [] (some (errResp resId
      (createError (-32601) none (some (Json.str "Method not specified")))))
  else
    match jsGet call "method" with
    | some (Json.str m) =>
      if paramsRejectedByEngine call then
        ProcOut.done [] (some (errResp resId (createError (-32600) none none)))
      else
        ProcOut.done [] (dispatchCall methods m reqId resId (jsGet call "params"))
    | _ =>
      ProcOut.done [] (some (errResp resId
        (createError (-32600) none (some (Json.str "Invalid type of method name")))))

/-- `Server._processCall` (src/src/server.ts lines 249-310), translated
branch for branch.  Unlike the shared engine it has no response branch,
uses error code `-32602` for a missing method, and its params check has no
`"params" in call` guard (an absent `params` is `undefined`, whose typeof
is not "object", so it is rejected).  It emits no events. -/
def Server.processCall (mode : VcMode) (methods : Methods) (call : Json) :
    Option (Option Response) :=
  if call = Json.null then none
  else
  let reqId := jsGet call "id"
  let resId := reqId.getD Json.null
  some (
  if ¬ isObjType call then
    some (errResp resId (createError (-32600) none none))
  else if versionFails mode (jsGet call "jsonrpc") then
    some (errResp resId
      (createError (-32600) none (some (Json.str "Invalid JSON-RPC Version"))))
  else if ¬ truthy (jsGet call "method") then
    some (errResp resId
      (createError (-32602) none (some (Json.str "Method not specified"))))
  else
    match jsGet call "method" with
    | some (Json.str m) =>
      if paramsRejectedByServer call then
        some (errResp resId (createError (-32600) none none))
      else
        dispatchCall methods m reqId resId (jsGet call "params")
    | _ =>
      some (errResp resId
        (createError (-32600) none (some (Json.str "Invalid type of method name")))))

/-- The body of a frame written back to the socket: the single response
object or the batch array (`JSON.stringify(isArray ? responses : responses[0])`). -/
inductive WireBody where
  | single (r : Response)
  | batch (rs : List Response)
deriving DecidableEq, Repr

/-- A frame on the wire: the `isBinary` mode bit and the body. -/
structure Wire where
  isBinary : Bool
  body : WireBody
deriving DecidableEq, Repr

/-- An incoming frame after the decode/parse step: either `JSON.parse`
threw, or it produced a `Json` value.  (The binary decodes at the top of
both handlers only turn bytes into the string that is parsed; they are
absorbed into this argument.) -/
inductive Parsed where
  | parseFail
  | ok (j : Json)
deriving DecidableEq, Repr

/-- The engine's per-call loop (`for (const call of calls) { const res =
await this._processCall(...); if (res) responses.push(res); }`): events in
emission order, and `none` in the second component when a `_processCall`
threw (the rejection aborts `handleMessage`, so no frame is sent and later
items are not processed). -/
def MessageHandler.runCalls (mode : VcMode) (methods : Methods) :
    List Json → List Event × Option (List Response)
  | [] => ([], some [])
  | c :: rest =>
    match MessageHandler.processCall mode methods c with
    | ProcOut.crash => ([], none)
    | ProcOut.done evs r =>
      match MessageHandler.runCalls mode methods rest with
      | (evs', none) => (evs ++ evs', none)
      | (evs', some rs) => (evs ++ evs', some (r.toList ++ rs))

/-- `MessageHandler.handleMessage` (src/src/Socket.ts lines 55-115) after
the decode step: the emitted events and the frame written back, if any. -/
def MessageHandler.handleMessage (mode : VcMode) (methods : Methods)
    (isBinary : Bool) (input : Parsed) : List Event × Option Wire :=
  match input with
  | Parsed.parseFail =>
    ([], some ⟨isBinary, WireBody.single
      (errResp Json.null (createError (-32700) none (some (Json.str "Invalid JSON"))))⟩)
  | Parsed.ok (Json.arr []) =>
    ([], some ⟨isBinary, WireBody.single
      (errResp Json.null (createError (-32600) none (some (Json.str "Empty Array"))))⟩)
  | Parsed.ok (Json.arr items) =>
    match MessageHandler.runCalls mode methods items with
    | (evs, none) => (evs, none)
    | (evs, some []) => (evs, none)
    | (evs, some rs) => (evs, some ⟨isBinary, WireBody.batch rs⟩)
  | Parsed.ok j =>
    match MessageHandler.runCalls mode methods [j] with
    | (evs, none) => (evs, none)
    | (evs, some []) => (evs, none)
    | (evs, some (r :: _)) => (evs, some ⟨isBinary, WireBody.single r⟩)

/-- The server's per-call loop in `Server._wsMessageHandler`: `none` when a
`_processCall` threw (aborting the handler, nothing sent). -/
def Server.runCalls (mode : VcMode) (methods : Methods) :
    List Json → Option (List Response)
  | [] => some []
  | c :: rest =>
    match Server.processCall mode methods c with
    | none => none
    | some r =>
      match Server.runCalls mode methods rest with
      | none => none
      | some rs => some (r.toList ++ rs)

/-- `Server._wsMessageHandler` (src/src/server.ts lines 192-247) after the
decode step: the frame written back, if any. -/
def Server.wsMessageHandler (mode : VcMode) (methods : Methods)
    (isBinary : Bool) (input : Parsed) : Option Wire :=
  match input with
  | Parsed.parseFail =>
    some ⟨isBinary, WireBody.single
      (errResp Json.null (createError (-32700) none (some (Json.str "Invalid JSON"))))⟩
  | Parsed.ok (Json.arr []) =>
    some ⟨isBinary, WireBody.single
      (errResp Json.null (createError (-32600) none (some (Json.str "Empty Array"))))⟩
  | Parsed.ok (Json.arr items) =>
    match Server.runCalls mode methods items with
    | none => none
    | some [] => none
    | some rs => some ⟨isBinary, WireBody.batch rs⟩
  | Parsed.ok j =>
    match Server.runCalls mode methods [j] with
    | none => none
    | some [] => none
    | some (r :: _) => some ⟨isBinary, WireBody.single r⟩

/-- `ws` readyState of the client's underlying socket. -/
inductive WsReadyState where
  | connecting
  | wsOpen
  | closing
  | wsClosed
deriving DecidableEq, Repr

/-- One value of `Client._responseHandlers` (`[NodeJS.Timer, resolve,
reject]`), keyed in the Map by the numeric request id.  The Timeout handle
is modelled as an id in a separate timer namespace; the resolve/reject
capabilities are traced through effects. -/
structure PendingEntry where
  timer : Nat
deriving DecidableEq, Repr

/-- How a pending call's promise is settled. -/
inductive Settle where
  | resolvedWith (v : Option Json)
  | rejectedWithError (message : String)
  | rejectedWithValue (v : Option Json)
deriving DecidableEq, Repr

/-- The observable actions of the client's bookkeeping code, in program
order.  `clearTimeoutOnNumber n` records that `clearTimeout` was called
with a plain number `n` (in Node a `setTimeout` handle is a `Timeout`
object, so such a call cancels nothing); `clearTimeoutOnTimer t` records a
call with the stored Timeout handle `t`. -/
inductive ClientEffect where
  | clearTimeoutOnNumber (n : Nat)
  | clearTimeoutOnTimer (t : Nat)
  | setTimeoutStarted (t : Nat) (ms : Nat)
  | settle (id : Nat) (s : Settle)
  | wsSend (data : Json)
  | wsCloseCall
  | emitEvent (name : String) (payload : Json)
deriving DecidableEq, Repr

/-- The `Client` fields the verified operations read or write.  The pending
table keeps Map insertion order; `ws = none` is `this._ws === null`. -/
structure ClientState where
  responseHandlers : List (Nat × PendingEntry)
  currentRequestId : Nat
  ws : Option WsReadyState
  skipReconnection : Bool
  reconnecting : Bool
  reconnectionSleepTimer : Option Nat
  nextTimer : Nat
deriving DecidableEq, Repr

/-- `Client.disconnect` (src/src/server.ts lines 539-573).  The loop
`for (const [timer] of this._responseHandlers) clearTimeout(timer)`
destructures each Map entry `[key, value]`, so `timer` is bound to the
numeric request id, not to the stored Timeout handle; `clearTimeout` then
receives a plain number.  No resolve or reject capability is invoked
anywhere in the function; the table is cleared, the reconnection sleep
timer (when set) is cancelled with the real handle, and the socket is
closed when it exists and is OPEN or CONNECTING.  (`_backoff.reset()`
touches no modelled field.) -/
def Client.disconnect (s : ClientState) : ClientState × List ClientEffect :=
  let clearFx := s.responseHandlers.map (fun e => ClientEffect.clearTimeoutOnNumber e.1)
  let s1 : ClientState :=
    { s with skipReconnection := true, reconnecting := false, responseHandlers := [] }
  let sleepFx :=
    match s1.reconnectionSleepTimer with
    | some t => [ClientEffect.clearTimeoutOnTimer t]
    | none => []
  let s2 : ClientState := { s1 with reconnectionSleepTimer := none }
  match s2.ws with
  | none => (s2, clearFx ++ sleepFx)
  | some rs =>
    let closeFx :=
      if rs = WsReadyState.wsOpen ∨ rs = WsReadyState.connecting then [ClientEffect.wsCloseCall]
      else []
    ({ s2 with ws := none }, clearFx ++ sleepFx ++ closeFx)

/-- The request object `{jsonrpc: "2.0", method, params, id}` serialized by
`Client.call`. -/
def requestEnvelope (method : String) (params : Json) (id : Nat) : Json :=
  Json.obj [("jsonrpc", Json.str "2.0"), ("method", Json.str method),
    ("params", params), ("id", Json.num id)]

/-- `Client.call` (src/src/server.ts lines 596-613) together with the
`Client.send` it invokes (lines 575-585).  When `_ws` is null, `send`
throws a TypeError reading `readyState` before the promise is created
(the `Except.error` case).  Otherwise the frame is written only when the
socket is OPEN — on any other readyState `send` silently returns — and in
either case a pending entry with a fresh `methodCallTimeout` timer is
registered; the returned promise is not settled synchronously.  The
`Except.error` carries the state as the exception leaves it: the counter
`currentRequestId++` had already been incremented. -/
def Client.call (s : ClientState) (method : String) (params : Json)
    (methodCallTimeout : Nat) : Except ClientState (ClientState × List ClientEffect) :=
  let id := s.currentRequestId
  let s0 : ClientState := { s with currentRequestId := id + 1 }
  match s0.ws with
  | none => Except.error s0
  | some rs =>
    let sendFx :=
      if rs = WsReadyState.wsOpen then [ClientEffect.wsSend (requestEnvelope method params id)]
      else []
    let t := s0.nextTimer
    let s1 : ClientState :=
      { s0 with nextTimer := t + 1, responseHandlers := s0.responseHandlers ++ [(id, ⟨t⟩)] }
    Except.ok (s1, sendFx ++ [ClientEffect.setTimeoutStarted t methodCallTimeout])

/-- The `setTimeout` callback armed by `Client.call`: delete the entry and
reject the promise with `new Error("JSON-RPC: method call timeout")`. -/
def Client.timeoutFire (s : ClientState) (id : Nat) : ClientState × List ClientEffect :=
  ({ s with responseHandlers := s.responseHandlers.filter (fun e => e.1 ≠ id) },
   [ClientEffect.settle id (Settle.rejectedWithError "JSON-RPC: method call timeout")])

/-- `Client._handleMethodResponse` (src/src/server.ts lines 668-692),
translated branch for branch; note the literal event name the source
emits is the misspelt string "unkown_response". -/
def Client.handleMethodResponse (s : ClientState) (response : Json) :
    ClientState × List ClientEffect :=
  if isStringVal (jsGet response "id") then
    (s, [ClientEffect.emitEvent "unkown_response" response])
  else
    let entry :=
      match jsGet response "id" with
      | some (Json.num n) =>
        s.responseHandlers.find? (fun (e : Nat × PendingEntry) => decide ((e.1 : Int) = n))
      | _ => none
    match entry with
    | none => (s, [ClientEffect.emitEvent "unkown_response" response])
    | some (id, pe) =>
      let s1 : ClientState :=
        { s with responseHandlers := s.responseHandlers.filter (fun e => e.1 ≠ id) }
      let settleFx :=
        if isSuccessResponseCall response then
          [ClientEffect.settle id (Settle.resolvedWith (jsGet response "result"))]
        else
          [ClientEffect.settle id (Settle.rejectedWithValue (jsGet response "error"))]
      (s1, ClientEffect.clearTimeoutOnTimer pe.timer :: settleFx)

/-- Modelled from the spec: `last_pong_at` of a session — milliseconds of
the last pong (0 initially) or the sentinel "pending".  The heartbeat code
itself (spec §4.7) is not among the repository's files under src/: the
Server there has no ping timer, so this component is modelled from the
spec's words. -/
inductive PongState where
  | pending
  | pongAt (t : Nat)
deriving DecidableEq, Repr

/-- Modelled from the spec: the per-session state the heartbeat reads. -/
structure HbSession where
  lastPong : PongState
  sockOpen : Bool
deriving DecidableEq, Repr

/-- Modelled from the spec: the server-side heartbeat state — the session
table and `lastPingAt`. -/
structure HbState where
  sessions : List (String × HbSession)
  lastPingAt : Nat
deriving DecidableEq, Repr

/-- Modelled from the spec: what a heartbeat tick does to a session. -/
inductive HbAction where
  | terminated (id : String)
  | pinged (id : String)
deriving DecidableEq, Repr

/-- Modelled from the spec: a session survives the tick iff its
`last_pong_at` is a timestamp no later than `deadline = lastPingAt +
pingTimeout` (spec §4.7: "if `last_pong_at === \x22pending\x22` or
`last_pong_at > deadline` ... `terminate()` it"). -/
def hbKeep (deadline : Nat) (sess : HbSession) : Bool :=
  match sess.lastPong with
  | PongState.pending => false
  | PongState.pongAt t => decide (t ≤ deadline)

/-- Modelled from the spec: one heartbeat tick (spec §4.7 "Heartbeat tick",
every `pingInterval`): terminate each session whose `last_pong_at` is
"pending" or past the deadline; set the remaining sessions' `last_pong_at`
to "pending" and ping them when their socket is open; then set
`lastPingAt = now`. -/
def heartbeatTick (pingTimeout : Nat) (now : Nat) (s : HbState) : HbState × List HbAction :=
  let deadline := s.lastPingAt + pingTimeout
  let kept := (s.sessions.filter (fun e => hbKeep deadline e.2)).map
    (fun e => (e.1, { e.2 with lastPong := PongState.pending }))
  let actions := (s.sessions.map (fun e =>
    if hbKeep deadline e.2 then
      (if e.2.sockOpen then [HbAction.pinged e.1] else [])
    else [HbAction.terminated e.1])).flatten
  ({ sessions := kept, lastPingAt := now }, actions)

/-- Modelled from the spec: a pong from session `id` sets its
`last_pong_at` to the current time (spec §4.6). -/
def heartbeatPong (id : String) (now : Nat) (s : HbState) : HbState :=
  let upd := fun (e : String × HbSession) =>
    if e.1 = id then (e.1, { e.2 with lastPong := PongState.pongAt now }) else e
  { s with sessions := s.sessions.map upd }

/-- An empty method registry. -/
def methodsNone : Methods := fun _ => none

/-- A registry with one method "m" whose handler returns `undefined`
(so `result` becomes `null` through `|| null`). -/
def methodsM : Methods :=
  fun s => if s = "m" then some (fun _ => Outcome.ret none) else none

/-- A registry with one method "m" whose handler returns `false`. -/
def methodsMFalse : Methods :=
  fun s => if s = "m" then some (fun _ => Outcome.ret (some (Json.bool false))) else none

/-- C1, counterexample.  The claim says an envelope without an `id` key
never gets a wire reply, "in particular ... when the named method is not
registered".  The engine in fact answers the id-less envelope
`{jsonrpc:"2.0", method:"nope"}` (no method registered) with a
MethodNotFound error response whose id is null — this reply is what feeds
the peer's `notification_error` round trip the repository's own e2e test
exercises. -/
theorem c1_counterexample :
    jsGet (Json.obj [("jsonrpc", Json.str "2.0"), ("method", Json.str "nope")]) "id" = none ∧
    (MessageHandler.handleMessage VcMode.strict methodsNone false
        (Parsed.ok (Json.obj [("jsonrpc", Json.str "2.0"), ("method", Json.str "nope")]))).2 =
      some ⟨false, WireBody.single (errResp Json.null (createError (-32601) none none))⟩ := by
  decide

/-- C2, counterexample.  On the frame `{jsonrpc:"2.0", method:"m", id:1}`
(no `params` key, "m" registered) the shared engine replies with
`result: null` while the server's own path replies InvalidRequest, because
its params check lacks the `"params" in call` guard: the two paths do not
produce the same wire output. -/
theorem c2_counterexample :
    Server.wsMessageHandler VcMode.strict methodsM false
        (Parsed.ok (Json.obj [("jsonrpc", Json.str "2.0"), ("method", Json.str "m"),
          ("id", Json.num 1)])) =
      some ⟨false, WireBody.single (errResp (Json.num 1) (createError (-32600) none none))⟩ ∧
    (MessageHandler.handleMessage VcMode.strict methodsM false
        (Parsed.ok (Json.obj [("jsonrpc", Json.str "2.0"), ("method", Json.str "m"),
          ("id", Json.num 1)]))).2 =
      some ⟨false, WireBody.single (okResp (Json.num 1) Json.null)⟩ ∧
    Server.wsMessageHandler VcMode.strict methodsM false
        (Parsed.ok (Json.obj [("jsonrpc", Json.str "2.0"), ("method", Json.str "m"),
          ("id", Json.num 1)])) ≠
      (MessageHandler.handleMessage VcMode.strict methodsM false
        (Parsed.ok (Json.obj [("jsonrpc", Json.str "2.0"), ("method", Json.str "m"),
          ("id", Json.num 1)]))).2 := by
  refine ⟨by decide, by decide, by decide⟩

/-- C3, counterexample.  Two clauses of the claim fail on the code: the
empty batch `[]` is answered with a SINGLE response object although the
input frame was an array, and an id-less batch item whose method is
unregistered DOES contribute an element (the MethodNotFound error
envelope with id null). -/
theorem c3_counterexample :
    (MessageHandler.handleMessage VcMode.strict methodsNone false
        (Parsed.ok (Json.arr []))).2 =
      some ⟨false, WireBody.single (errResp Json.null
        (createError (-32600) none (some (Json.str "Empty Array"))))⟩ ∧
    (MessageHandler.handleMessage VcMode.strict methodsNone false
        (Parsed.ok (Json.arr [Json.obj [("jsonrpc", Json.str "2.0"),
          ("method", Json.str "nope")]]))).2 =
      some ⟨false, WireBody.batch [errResp Json.null (createError (-32601) none none)]⟩ := by
  refine ⟨by decide, by decide⟩

/-- C4, evidence.  `Client.disconnect` on a state with one pending call
(request id 0, Timeout handle 7) and an open socket: the pending table is
emptied, but the only `clearTimeout` for it receives the map KEY `0` (the
`for (const [timer] of map)` destructuring binds the key), never the
Timeout handle 7, and no pending future is settled at all — the effect
list contains no `settle`, so the caller is not rejected with any
"disconnected" error (the still-armed timeout will later reject with
"JSON-RPC: method call timeout"). -/
theorem c4_disconnect_behaviour :
    Client.disconnect ⟨[(0, ⟨7⟩)], 1, some WsReadyState.wsOpen, false, false, none, 8⟩ =
      (⟨[], 1, none, true, false, none, 8⟩,
        [ClientEffect.clearTimeoutOnNumber 0, ClientEffect.wsCloseCall]) := by
  decide

/-- C5, evidence.  A `Client.call` issued while the socket is CONNECTING
(not OPEN): `send` silently drops the frame (no `wsSend` effect), no
rejection happens — the promise is left pending behind a fresh
`methodCallTimeout` timer — and when that timer fires the future is
rejected with "JSON-RPC: method call timeout", not with any
"rejected / not connected" error; with `_ws === null` (after a close)
`call` instead throws a TypeError before creating the promise. -/
theorem c5_call_not_connected_behaviour :
    Client.call ⟨[], 0, some WsReadyState.connecting, false, false, none, 3⟩
        "myMethod" (Json.obj []) 20000 =
      Except.ok (⟨[(0, ⟨3⟩)], 1, some WsReadyState.connecting, false, false, none, 4⟩,
        [ClientEffect.setTimeoutStarted 3 20000]) ∧
    Client.timeoutFire ⟨[(0, ⟨3⟩)], 1, some WsReadyState.connecting, false, false, none, 4⟩ 0 =
      (⟨[], 1, some WsReadyState.connecting, false, false, none, 4⟩,
        [ClientEffect.settle 0 (Settle.rejectedWithError "JSON-RPC: method call timeout")]) ∧
    Client.call ⟨[], 0, none, false, false, none, 3⟩ "myMethod" (Json.obj []) 20000 =
      Except.error ⟨[], 1, none, false, false, none, 3⟩ := by
  refine ⟨by rfl, by decide, by rfl⟩

/-- C6, counterexample.  The claim quantifies over every call envelope
whose method is missing or empty, but the version check runs first: under
the default STRICT mode the engine answers the method-less envelope `{}`
with error code -32600 ("Invalid JSON-RPC Version"), not -32601 — exactly
what the repository's own test expects for the raw frame "{}". -/
theorem c6_counterexample :
    MessageHandler.processCall VcMode.strict methodsNone (Json.obj []) =
      ProcOut.done [] (some (errResp Json.null
        (createError (-32600) none (some (Json.str "Invalid JSON-RPC Version"))))) := by
  decide

/-- C7, counterexample.  The claim says an envelope with no `params` key is
never rejected for its parameters, but the server's own path (cited by the
claim) rejects `{jsonrpc:"2.0", method:"m", id:1}` with InvalidRequest
although the method is registered and `params` is absent; the shared
engine accepts the same envelope. -/
theorem c7_counterexample :
    hasKey (Json.obj [("jsonrpc", Json.str "2.0"), ("method", Json.str "m"),
        ("id", Json.num 1)]) "params" = false ∧
    Server.processCall VcMode.strict methodsM
        (Json.obj [("jsonrpc", Json.str "2.0"), ("method", Json.str "m"), ("id", Json.num 1)]) =
      some (some (errResp (Json.num 1) (createError (-32600) none none))) ∧
    MessageHandler.processCall VcMode.strict methodsM
        (Json.obj [("jsonrpc", Json.str "2.0"), ("method", Json.str "m"), ("id", Json.num 1)]) =
      ProcOut.done [] (some (okResp (Json.num 1) Json.null)) := by
  refine ⟨by decide, by decide, by decide⟩

/-- C8, counterexample.  A handler that returns `false` (neither null nor
undefined): the success response carries `result: null`, not `false`,
because the code computes `result = returnValue || null` (JS `||`), not
`returnValue ?? null`. -/
theorem c8_counterexample :
    MessageHandler.processCall VcMode.strict methodsMFalse
        (Json.obj [("jsonrpc", Json.str "2.0"), ("method", Json.str "m"),
          ("params", Json.obj []), ("id", Json.num 1)]) =
      ProcOut.done [] (some (okResp (Json.num 1) Json.null)) := by
  decide

/-- C9, evidence.  `Client._handleMethodResponse` on a response with a
string id, and on one with a numeric id absent from the pending table:
in both cases the pending table is left unchanged and exactly one event is
emitted — but its literal name is the misspelt "unkown_response", not the
"unknown_response" the claim (and the spec's event list) states. -/
theorem c9_unkown_response_behaviour :
    Client.handleMethodResponse ⟨[(0, ⟨7⟩)], 1, some WsReadyState.wsOpen, false, false, none, 8⟩
        (Json.obj [("jsonrpc", Json.str "2.0"), ("result", Json.num 1),
          ("id", Json.str "abc")]) =
      (⟨[(0, ⟨7⟩)], 1, some WsReadyState.wsOpen, false, false, none, 8⟩,
        [ClientEffect.emitEvent "unkown_response"
          (Json.obj [("jsonrpc", Json.str "2.0"), ("result", Json.num 1),
            ("id", Json.str "abc")])]) ∧
    Client.handleMethodResponse ⟨[(0, ⟨7⟩)], 1, some WsReadyState.wsOpen, false, false, none, 8⟩
        (Json.obj [("jsonrpc", Json.str "2.0"), ("result", Json.num 1),
          ("id", Json.num 5)]) =
      (⟨[(0, ⟨7⟩)], 1, some WsReadyState.wsOpen, false, false, none, 8⟩,
        [ClientEffect.emitEvent "unkown_response"
          (Json.obj [("jsonrpc", Json.str "2.0"), ("result", Json.num 1),
            ("id", Json.num 5)])]) ∧
    "unkown_response" ≠ "unknown_response" := by
  refine ⟨by decide, by decide, by decide⟩

/-- A registry with one method "m" whose handler returns the number 5. -/
def methodsMNum : Methods :=
  fun s => if s = "m" then some (fun _ => Outcome.ret (some (Json.num 5))) else none

/-- A `jsGet` hit forces the value to be an object literal: it is neither
`null` nor of another constructor. -/
theorem jsGet_some_shape {call : Json} {k : String} {v : Json}
    (h : jsGet call k = some v) : call ≠ Json.null ∧ isObjType call = true := by
  cases call <;> simp [jsGet, isObjType] at h ⊢

/-- An envelope without an `id` key is never classified as a response. -/
theorem isResponseCall_of_no_id {call : Json} (h : jsGet call "id" = none) :
    isResponseCall call = false := by
  simp [isResponseCall, hasKey, h]

/-- The engine stays silent on a dispatched notification: an envelope with
no `id` key that passes the version and shape checks and names a
registered method produces no response, whether the handler returns or
throws (`if (reqId === undefined) return;` in both the try and the catch
block). -/
theorem engine_dispatched_notification_silent (mode : VcMode) (methods : Methods)
    (call : Json) (m : String) (h : Option Json → Outcome)
    (hid : jsGet call "id" = none)
    (hm : jsGet call "method" = some (Json.str m))
    (hmne : m ≠ "")
    (hver : versionFails mode (jsGet call "jsonrpc") = false)
    (hpar : paramsRejectedByEngine call = false)
    (hreg : methods m = some h) :
    MessageHandler.processCall mode methods call = ProcOut.done [] none := by
  obtain ⟨hnn, hobj⟩ := jsGet_some_shape hm
  have hresp := isResponseCall_of_no_id hid
  have htr : truthy (jsGet call "method") = true := by simp [hm, truthy, hmne]
  cases hout : h (jsGet call "params") with
  | ret v =>
    unfold MessageHandler.processCall
    simp [hnn, hobj, hver, hresp, hm, truthy, hmne, hpar, dispatchCall, hreg, hout, hid]
  | exn e =>
    unfold MessageHandler.processCall
    simp [hnn, hobj, hver, hresp, hm, truthy, hmne, hpar, dispatchCall, hreg, hout, hid]

/-- The engine's reply to an id-less envelope naming an unregistered
method: the MethodNotFound error response with id null. -/
theorem engine_unregistered_reply (mode : VcMode) (methods : Methods)
    (call : Json) (m : String)
    (hid : jsGet call "id" = none)
    (hm : jsGet call "method" = some (Json.str m))
    (hmne : m ≠ "")
    (hver : versionFails mode (jsGet call "jsonrpc") = false)
    (hpar : paramsRejectedByEngine call = false)
    (hreg : methods m = none) :
    MessageHandler.processCall mode methods call =
      ProcOut.done [] (some (errResp Json.null (createError (-32601) none none))) := by
  obtain ⟨hnn, hobj⟩ := jsGet_some_shape hm
  have hresp := isResponseCall_of_no_id hid
  unfold MessageHandler.processCall
  simp [hnn, hobj, hver, hresp, hm, truthy, hmne, hpar, dispatchCall, hreg, hid]

/-- C1 (amended): an incoming call envelope without an `id` key gets no
wire reply when it reaches its registered handler — whether the handler
returns normally or throws; but when the named method is NOT registered
(and the envelope passes the earlier checks) the engine does reply, with a
MethodNotFound error response whose id is null. -/
theorem c1_amended (mode : VcMode) (methods : Methods) (call : Json) (m : String)
    (hid : jsGet call "id" = none)
    (hm : jsGet call "method" = some (Json.str m))
    (hmne : m ≠ "")
    (hver : versionFails mode (jsGet call "jsonrpc") = false)
    (hpar : paramsRejectedByEngine call = false) :
    (∀ h : Option Json → Outcome, methods m = some h →
      MessageHandler.processCall mode methods call = ProcOut.done [] none) ∧
    (methods m = none →
      MessageHandler.processCall mode methods call =
        ProcOut.done [] (some (errResp Json.null (createError (-32601) none none)))) := by
  obtain ⟨hnn, hobj⟩ := jsGet_some_shape hm
  have hresp := isResponseCall_of_no_id hid
  have htr : truthy (jsGet call "method") = true := by simp [hm, truthy, hmne]
  constructor
  · intro h hreg
    exact engine_dispatched_notification_silent mode methods call m h hid hm hmne hver hpar hreg
  · intro hreg
    exact engine_unregistered_reply mode methods call m hid hm hmne hver hpar hreg

/-- C1, witness: the amended theorem applied to the concrete notification
`{jsonrpc:"2.0", method:"m"}` with "m" registered — no reply. -/
theorem c1_witness :
    MessageHandler.processCall VcMode.strict methodsM
        (Json.obj [("jsonrpc", Json.str "2.0"), ("method", Json.str "m")]) =
      ProcOut.done [] none :=
  (c1_amended VcMode.strict methodsM
      (Json.obj [("jsonrpc", Json.str "2.0"), ("method", Json.str "m")]) "m"
      rfl rfl (by decide) (by decide) (by decide)).1 _ rfl

/-- C6 (amended): an object call envelope that passes the configured
version check, is not classified as a response, and whose `method` field
is missing or the empty string is answered by the engine with error code
-32601 ("Method not found") carrying data "Method not specified". -/
theorem c6_amended (mode : VcMode) (methods : Methods) (call : Json)
    (hnn : call ≠ Json.null)
    (hobj : isObjType call = true)
    (hver : versionFails mode (jsGet call "jsonrpc") = false)
    (hresp : isResponseCall call = false)
    (hm : jsGet call "method" = none ∨ jsGet call "method" = some (Json.str "")) :
    MessageHandler.processCall mode methods call =
      ProcOut.done [] (some (errResp ((jsGet call "id").getD Json.null)
        (createError (-32601) none (some (Json.str "Method not specified"))))) := by
  have htr : truthy (jsGet call "method") = false := by
    rcases hm with h | h <;> simp [h, truthy]
  unfold MessageHandler.processCall
  simp [hnn, hobj, hver, hresp, htr]

/-- C6, witness: the engine's reply to `{jsonrpc:"2.0"}` (method missing,
version check passing). -/
theorem c6_witness :
    MessageHandler.processCall VcMode.strict methodsNone
        (Json.obj [("jsonrpc", Json.str "2.0")]) =
      ProcOut.done [] (some (errResp Json.null
        (createError (-32601) none (some (Json.str "Method not specified"))))) :=
  c6_amended VcMode.strict methodsNone (Json.obj [("jsonrpc", Json.str "2.0")])
    (by decide) (by decide) (by decide) (by decide) (Or.inl (by decide))

/-- C8 (amended): for a request (id present) whose handler returns `v`,
the success response carries `result = v || null` — `v` itself when `v` is
truthy, and `null` when `v` is null, undefined, `false`, `0` or the empty
string (JS `||`, not `??`). -/
theorem c8_amended (mode : VcMode) (methods : Methods) (call : Json) (m : String)
    (h : Option Json → Outcome) (v : Option Json) (idv : Json)
    (hnn : call ≠ Json.null)
    (hobj : isObjType call = true)
    (hver : versionFails mode (jsGet call "jsonrpc") = false)
    (hresp : isResponseCall call = false)
    (hm : jsGet call "method" = some (Json.str m))
    (hmne : m ≠ "")
    (hpar : paramsRejectedByEngine call = false)
    (hreg : methods m = some h)
    (hret : h (jsGet call "params") = Outcome.ret v)
    (hid : jsGet call "id" = some idv) :
    MessageHandler.processCall mode methods call =
      ProcOut.done [] (some (okResp idv (if truthy v then v.getD Json.null else Json.null))) := by
  unfold MessageHandler.processCall
  simp [hnn, hobj, hver, hresp, hm, truthy, hmne, hpar, dispatchCall, hreg, hret, hid]

/-- C8, witness: a handler returning the truthy number 5 yields
`result: 5` (the claim's positive half is not vacuous). -/
theorem c8_witness :
    MessageHandler.processCall VcMode.strict methodsMNum
        (Json.obj [("jsonrpc", Json.str "2.0"), ("method", Json.str "m"),
          ("id", Json.num 1)]) =
      ProcOut.done [] (some (okResp (Json.num 1)
        (if truthy (some (Json.num 5)) then (some (Json.num 5)).getD Json.null
         else Json.null))) :=
  c8_amended VcMode.strict methodsMNum
    (Json.obj [("jsonrpc", Json.str "2.0"), ("method", Json.str "m"), ("id", Json.num 1)])
    "m" (fun _ => Outcome.ret (some (Json.num 5))) (some (Json.num 5)) (Json.num 1)
    (by decide) (by decide) (by decide) (by decide) rfl (by decide) (by decide) rfl rfl rfl

/-- The spec's wording of the params rule: the `params` key is present and
its value is neither an object nor an array (null counted as rejected,
absence as fine).  Stated over the possibly-undefined read of `params`. -/
def specParamsBad : Option Json → Bool
  | some (Json.obj _) => false
  | some (Json.arr _) => false
  | some _ => true
  | none => false

/-- C7 (amended): in the shared engine the params rejection is exactly the
spec's rule — `params` present and neither object nor array, null
rejected, array accepted, absence never rejected — and when it fires the
reply is the bare InvalidRequest; when it does not fire the engine
proceeds to the registry/handler dispatch.  The server's own path (also
cited by the claim) additionally rejects every call envelope with NO
`params` key with InvalidRequest, which is what falsifies the claim as
stated. -/
theorem c7_amended (mode : VcMode) (methods : Methods) (call : Json) (m : String)
    (hm : jsGet call "method" = some (Json.str m))
    (hmne : m ≠ "")
    (hver : versionFails mode (jsGet call "jsonrpc") = false)
    (hresp : isResponseCall call = false) :
    (paramsRejectedByEngine call = specParamsBad (jsGet call "params")) ∧
    (paramsRejectedByEngine call = true →
      MessageHandler.processCall mode methods call =
        ProcOut.done [] (some (errResp ((jsGet call "id").getD Json.null)
          (createError (-32600) none none)))) ∧
    (paramsRejectedByEngine call = false →
      MessageHandler.processCall mode methods call =
        ProcOut.done [] (dispatchCall methods m (jsGet call "id")
          ((jsGet call "id").getD Json.null) (jsGet call "params"))) ∧
    (jsGet call "params" = none →
      Server.processCall mode methods call =
        some (some (errResp ((jsGet call "id").getD Json.null)
          (createError (-32600) none none)))) := by
  obtain ⟨hnn, hobj⟩ := jsGet_some_shape hm
  refine ⟨?_, ?_, ?_, ?_⟩
  · cases hp : jsGet call "params" with
    | none => simp [paramsRejectedByEngine, specParamsBad, hasKey, hp]
    | some p =>
      cases p <;> simp [paramsRejectedByEngine, specParamsBad, hasKey, hp, isObjType]
  · intro hrej
    unfold MessageHandler.processCall
    simp [hnn, hobj, hver, hresp, hm, truthy, hmne, hrej]
  · intro hok
    unfold MessageHandler.processCall
    simp [hnn, hobj, hver, hresp, hm, truthy, hmne, hok]
  · intro hnone
    have hrej : paramsRejectedByServer call = true := by
      simp [paramsRejectedByServer, hnone]
    unfold Server.processCall
    simp [hnn, hobj, hver, hm, truthy, hmne, hrej]

/-- C7, witness: the amended theorem at the concrete request
`{jsonrpc:"2.0", method:"m", params:[1], id:1}` — array params are not
rejected and the engine reaches the dispatch. -/
theorem c7_witness :
    (paramsRejectedByEngine (Json.obj [("jsonrpc", Json.str "2.0"),
        ("method", Json.str "m"), ("params", Json.arr [Json.num 1]),
        ("id", Json.num 1)]) =
      specParamsBad (jsGet (Json.obj [("jsonrpc", Json.str "2.0"),
        ("method", Json.str "m"), ("params", Json.arr [Json.num 1]),
        ("id", Json.num 1)]) "params")) ∧
    (MessageHandler.processCall VcMode.strict methodsM
        (Json.obj [("jsonrpc", Json.str "2.0"), ("method", Json.str "m"),
          ("params", Json.arr [Json.num 1]), ("id", Json.num 1)]) =
      ProcOut.done [] (dispatchCall methodsM "m"
        (jsGet (Json.obj [("jsonrpc", Json.str "2.0"), ("method", Json.str "m"),
          ("params", Json.arr [Json.num 1]), ("id", Json.num 1)]) "id")
        ((jsGet (Json.obj [("jsonrpc", Json.str "2.0"), ("method", Json.str "m"),
          ("params", Json.arr [Json.num 1]), ("id", Json.num 1)]) "id").getD Json.null)
        (jsGet (Json.obj [("jsonrpc", Json.str "2.0"), ("method", Json.str "m"),
          ("params", Json.arr [Json.num 1]), ("id", Json.num 1)]) "params"))) :=
  ⟨(c7_amended VcMode.strict methodsM
      (Json.obj [("jsonrpc", Json.str "2.0"), ("method", Json.str "m"),
        ("params", Json.arr [Json.num 1]), ("id", Json.num 1)]) "m"
      rfl (by decide) (by decide) (by decide)).1,
   (c7_amended VcMode.strict methodsM
      (Json.obj [("jsonrpc", Json.str "2.0"), ("method", Json.str "m"),
        ("params", Json.arr [Json.num 1]), ("id", Json.num 1)]) "m"
      rfl (by decide) (by decide) (by decide)).2.2.1 (by decide)⟩

/-- Items on which the two `_processCall`s take the same branches: items
that fail before classification (null, non-object, version failure), or
plain calls — envelopes that are not response-classified, have a truthy
`method` and carry a `params` key. -/
def agreeItem (mode : VcMode) (call : Json) : Bool :=
  decide (call = Json.null) || !(isObjType call) ||
    versionFails mode (jsGet call "jsonrpc") ||
    (!(isResponseCall call) && truthy (jsGet call "method") && hasKey call "params")

/-- On an `agreeItem`, `Server._processCall` returns exactly the response
of the shared engine's `_processCall` (and crashes exactly when it does). -/
theorem processCall_agree (mode : VcMode) (methods : Methods) (call : Json)
    (h : agreeItem mode call = true) :
    Server.processCall mode methods call =
      (match MessageHandler.processCall mode methods call with
       | ProcOut.crash => none
       | ProcOut.done _ r => some r) := by
  by_cases hnull : call = Json.null
  · simp [Server.processCall, MessageHandler.processCall, hnull]
  by_cases hobj : isObjType call = true
  · by_cases hver : versionFails mode (jsGet call "jsonrpc") = true
    · unfold Server.processCall MessageHandler.processCall
      simp [hnull, hobj, hver]
    · have hver' : versionFails mode (jsGet call "jsonrpc") = false := by
        simpa using hver
      have hplain : isResponseCall call = false ∧
          truthy (jsGet call "method") = true ∧ hasKey call "params" = true := by
        have h' := h
        simp [agreeItem, hnull, hobj, hver'] at h'
        exact ⟨h'.1.1, h'.1.2, h'.2⟩
      obtain ⟨hresp, htr, hpk⟩ := hplain
      have hpp : paramsRejectedByServer call = paramsRejectedByEngine call := by
        simp [paramsRejectedByEngine, paramsRejectedByServer, hpk]
      unfold Server.processCall MessageHandler.processCall
      simp only [hnull, hobj, hver', hresp, htr]
      cases hm : jsGet call "method" with
      | none => rw [hm] at htr; simp [truthy] at htr
      | some mv =>
        cases mv <;>
          [skip; skip; skip;
           (cases hrej : paramsRejectedByEngine call <;>
             simp [hm, hpp, hrej]);
           skip; skip] <;>
          simp [hm, hpp]
  · have hobj' : isObjType call = false := by simpa using hobj
    unfold Server.processCall MessageHandler.processCall
    simp [hnull, hobj']

/-- The server's per-call loop agrees with the engine's on a list of
`agreeItem`s: same optional response list (same crash behaviour). -/
theorem runCalls_agree (mode : VcMode) (methods : Methods) :
    ∀ (items : List Json), (∀ c ∈ items, agreeItem mode c = true) →
      Server.runCalls mode methods items = (MessageHandler.runCalls mode methods items).2 := by
  intro items h
  induction items with
  | nil => rfl
  | cons c rest ih =>
    have hc := h c (by simp)
    have hrest := ih (fun x hx => h x (by simp [hx]))
    simp only [Server.runCalls, MessageHandler.runCalls, processCall_agree mode methods c hc]
    cases hp : MessageHandler.processCall mode methods c with
    | crash => simp
    | done evs r =>
      simp only
      cases hrc : MessageHandler.runCalls mode methods rest with
      | mk evs' rs? =>
        rw [hrc] at hrest
        cases rs? <;> simp [hrest]

/-- The envelope items a parsed frame normalizes to (the `calls` array of
both message handlers): the array's elements, or the single object. -/
def parsedItems : Parsed → List Json
  | Parsed.parseFail => []
  | Parsed.ok (Json.arr items) => items
  | Parsed.ok j => [j]

/-- Bridging step for the single-object frames of the amended C2: both
message handlers route a non-array value through their one-item loop. -/
theorem c2_single (mode : VcMode) (methods : Methods) (isBin : Bool) (j : Json)
    (hna : ∀ xs, j ≠ Json.arr xs)
    (h : agreeItem mode j = true) :
    Server.wsMessageHandler mode methods isBin (Parsed.ok j) =
      (MessageHandler.handleMessage mode methods isBin (Parsed.ok j)).2 := by
  have hrc := runCalls_agree mode methods [j] (by simpa using h)
  cases hr : MessageHandler.runCalls mode methods [j] with
  | mk evs rs? =>
    have hrc' : Server.runCalls mode methods [j] = rs? := by rw [hrc, hr]
    cases j with
    | arr xs => exact absurd rfl (hna xs)
    | null =>
      cases rs? with
      | none => simp [Server.wsMessageHandler, MessageHandler.handleMessage, hr, hrc']
      | some rs =>
        cases rs <;> simp [Server.wsMessageHandler, MessageHandler.handleMessage, hr, hrc']
    | bool b =>
      cases rs? with
      | none => simp [Server.wsMessageHandler, MessageHandler.handleMessage, hr, hrc']
      | some rs =>
        cases rs <;> simp [Server.wsMessageHandler, MessageHandler.handleMessage, hr, hrc']
    | num n =>
      cases rs? with
      | none => simp [Server.wsMessageHandler, MessageHandler.handleMessage, hr, hrc']
      | some rs =>
        cases rs <;> simp [Server.wsMessageHandler, MessageHandler.handleMessage, hr, hrc']
    | str sv =>
      cases rs? with
      | none => simp [Server.wsMessageHandler, MessageHandler.handleMessage, hr, hrc']
      | some rs =>
        cases rs <;> simp [Server.wsMessageHandler, MessageHandler.handleMessage, hr, hrc']
    | obj ms =>
      cases rs? with
      | none => simp [Server.wsMessageHandler, MessageHandler.handleMessage, hr, hrc']
      | some rs =>
        cases rs <;> simp [Server.wsMessageHandler, MessageHandler.handleMessage, hr, hrc']

/-- C2 (amended): the server's own message path produces exactly the wire
output of the shared engine on every frame all of whose items either fail
before classification (null, non-object or failing the version check) or
are plain calls (not response-classified, truthy `method`, `params` key
present).  Outside this set the two paths genuinely diverge: the server
has no response branch, answers a missing/empty `method` with code -32602
instead of -32601, and rejects calls lacking a `params` key. -/
theorem c2_amended (mode : VcMode) (methods : Methods) (isBin : Bool) (input : Parsed)
    (h : ∀ c ∈ parsedItems input, agreeItem mode c = true) :
    Server.wsMessageHandler mode methods isBin input =
      (MessageHandler.handleMessage mode methods isBin input).2 := by
  cases input with
  | parseFail => rfl
  | ok j =>
    cases j with
    | arr items =>
      cases items with
      | nil => rfl
      | cons a rest =>
        have hrc := runCalls_agree mode methods (a :: rest)
          (by simpa [parsedItems] using h)
        cases hr : MessageHandler.runCalls mode methods (a :: rest) with
        | mk evs rs? =>
          have hrc' : Server.runCalls mode methods (a :: rest) = rs? := by
            rw [hrc, hr]
          cases rs? with
          | none =>
            simp [Server.wsMessageHandler, MessageHandler.handleMessage, hr, hrc']
          | some rs =>
            cases rs <;>
              simp [Server.wsMessageHandler, MessageHandler.handleMessage, hr, hrc']
    | null =>
      exact c2_single mode methods isBin Json.null (by simp)
        (by simpa [parsedItems] using h)
    | bool b =>
      exact c2_single mode methods isBin (Json.bool b) (by simp)
        (by simpa [parsedItems] using h)
    | num n =>
      exact c2_single mode methods isBin (Json.num n) (by simp)
        (by simpa [parsedItems] using h)
    | str sv =>
      exact c2_single mode methods isBin (Json.str sv) (by simp)
        (by simpa [parsedItems] using h)
    | obj ms =>
      exact c2_single mode methods isBin (Json.obj ms) (by simp)
        (by simpa [parsedItems] using h)

/-- C2, witness: the amended equivalence at a concrete plain request —
both paths answer `{jsonrpc:"2.0", method:"m", params:{}, id:1}` with the
same success frame. -/
theorem c2_witness :
    Server.wsMessageHandler VcMode.strict methodsM false
        (Parsed.ok (Json.obj [("jsonrpc", Json.str "2.0"), ("method", Json.str "m"),
          ("params", Json.obj []), ("id", Json.num 1)])) =
      (MessageHandler.handleMessage VcMode.strict methodsM false
        (Parsed.ok (Json.obj [("jsonrpc", Json.str "2.0"), ("method", Json.str "m"),
          ("params", Json.obj []), ("id", Json.num 1)]))).2 :=
  c2_amended VcMode.strict methodsM false
    (Parsed.ok (Json.obj [("jsonrpc", Json.str "2.0"), ("method", Json.str "m"),
      ("params", Json.obj []), ("id", Json.num 1)])) (by decide)

/-- The optional response a processed item contributes to the batch. -/
def respOf : ProcOut → Option Response
  | ProcOut.crash => none
  | ProcOut.done _ r => r

/-- Crash-free engine loop = `filterMap` of the per-item responses, in item
order. -/
theorem runCalls_filterMap (mode : VcMode) (methods : Methods) :
    ∀ (items : List Json),
      (∀ c ∈ items, MessageHandler.processCall mode methods c ≠ ProcOut.crash) →
      (MessageHandler.runCalls mode methods items).2 =
        some (items.filterMap (fun c => respOf (MessageHandler.processCall mode methods c))) := by
  intro items h
  induction items with
  | nil => rfl
  | cons c rest ih =>
    have hc := h c (by simp)
    have hrest := ih (fun x hx => h x (by simp [hx]))
    cases hp : MessageHandler.processCall mode methods c with
    | crash => exact absurd hp hc
    | done evs r =>
      simp only [MessageHandler.runCalls, hp]
      cases hrc : MessageHandler.runCalls mode methods rest with
      | mk evs' rs? =>
        rw [hrc] at hrest
        cases rs? with
        | none => simp at hrest
        | some rs =>
          simp only [Option.some.injEq] at hrest
          cases r <;> simp [List.filterMap_cons, hp, respOf, hrest]

/-- C3 (amended): (i) a frame sent for a non-empty batch input is the array
of the responses produced, in request-item order; no frame when no item
produced one; a mid-batch crash sends nothing; (ii) without crashes those
responses are exactly the `filterMap` of the per-item results, so an item
contributes an element iff it produced a response; (iii) for a single
(non-array) input the frame, when sent, is that single response object;
(iv) the empty batch is nevertheless answered with a SINGLE error object —
this and (v) are what the counterexample forces the original clauses to
give up; (v) an id-less item contributes no element when it reaches its
registered handler, but does contribute an error element with id null when
its method is not registered. -/
theorem c3_amended :
    (∀ (mode : VcMode) (methods : Methods) (isBin : Bool) (items : List Json)
        (rs : List Response),
      items ≠ [] →
      (MessageHandler.runCalls mode methods items).2 = some rs →
      (MessageHandler.handleMessage mode methods isBin (Parsed.ok (Json.arr items))).2 =
        (if rs = [] then none else some ⟨isBin, WireBody.batch rs⟩)) ∧
    (∀ (mode : VcMode) (methods : Methods) (isBin : Bool) (items : List Json),
      items ≠ [] →
      (MessageHandler.runCalls mode methods items).2 = none →
      (MessageHandler.handleMessage mode methods isBin (Parsed.ok (Json.arr items))).2 =
        none) ∧
    (∀ (mode : VcMode) (methods : Methods) (items : List Json),
      (∀ c ∈ items, MessageHandler.processCall mode methods c ≠ ProcOut.crash) →
      (MessageHandler.runCalls mode methods items).2 =
        some (items.filterMap (fun c => respOf (MessageHandler.processCall mode methods c)))) ∧
    (∀ (mode : VcMode) (methods : Methods) (isBin : Bool) (j : Json)
        (evs : List Event) (r : Option Response),
      (∀ xs, j ≠ Json.arr xs) →
      MessageHandler.processCall mode methods j = ProcOut.done evs r →
      (MessageHandler.handleMessage mode methods isBin (Parsed.ok j)).2 =
        Option.map (fun x => Wire.mk isBin (WireBody.single x)) r) ∧
    (∀ (mode : VcMode) (methods : Methods) (isBin : Bool),
      (MessageHandler.handleMessage mode methods isBin (Parsed.ok (Json.arr []))).2 =
        some ⟨isBin, WireBody.single (errResp Json.null
          (createError (-32600) none (some (Json.str "Empty Array"))))⟩) ∧
    (∀ (mode : VcMode) (methods : Methods) (call : Json) (m : String)
        (h : Option Json → Outcome),
      jsGet call "id" = none → jsGet call "method" = some (Json.str m) → m ≠ "" →
      versionFails mode (jsGet call "jsonrpc") = false →
      paramsRejectedByEngine call = false → methods m = some h →
      respOf (MessageHandler.processCall mode methods call) = none) ∧
    (∀ (mode : VcMode) (methods : Methods) (call : Json) (m : String),
      jsGet call "id" = none → jsGet call "method" = some (Json.str m) → m ≠ "" →
      versionFails mode (jsGet call "jsonrpc") = false →
      paramsRejectedByEngine call = false → methods m = none →
      respOf (MessageHandler.processCall mode methods call) =
        some (errResp Json.null (createError (-32601) none none))) := by
  refine ⟨?_, ?_, ?_, ?_, ?_, ?_, ?_⟩
  · intro mode methods isBin items rs hne hrun
    cases items with
    | nil => exact absurd rfl hne
    | cons a rest =>
      cases hr : MessageHandler.runCalls mode methods (a :: rest) with
      | mk evs rs? =>
        rw [hr] at hrun
        rcases hrun with rfl
        cases rs with
        | nil => simp [MessageHandler.handleMessage, hr]
        | cons r0 rtl => simp [MessageHandler.handleMessage, hr]
  · intro mode methods isBin items hne hrun
    cases items with
    | nil => exact absurd rfl hne
    | cons a rest =>
      cases hr : MessageHandler.runCalls mode methods (a :: rest) with
      | mk evs rs? =>
        rw [hr] at hrun
        rcases hrun with rfl
        simp [MessageHandler.handleMessage, hr]
  · exact runCalls_filterMap
  · intro mode methods isBin j evs r hna hp
    have hone : MessageHandler.runCalls mode methods [j] = (evs, some r.toList) := by
      cases r <;> simp [MessageHandler.runCalls, hp]
    cases j with
    | arr xs => exact absurd rfl (hna xs)
    | null => cases r <;> simp [MessageHandler.handleMessage, hone]
    | bool b => cases r <;> simp [MessageHandler.handleMessage, hone]
    | num n => cases r <;> simp [MessageHandler.handleMessage, hone]
    | str sv => cases r <;> simp [MessageHandler.handleMessage, hone]
    | obj ms => cases r <;> simp [MessageHandler.handleMessage, hone]
  · intro mode methods isBin
    rfl
  · intro mode methods call m h hid hm hmne hver hpar hreg
    rw [engine_dispatched_notification_silent mode methods call m h hid hm hmne hver hpar hreg]
    rfl
  · intro mode methods call m hid hm hmne hver hpar hreg
    rw [engine_unregistered_reply mode methods call m hid hm hmne hver hpar hreg]
    rfl

/-- Modelled from the spec: a sequence of pong events applied in order. -/
def applyPongs (ps : List (String × Nat)) (st : HbState) : HbState :=
  ps.foldl (fun acc p => heartbeatPong p.1 p.2 acc) st

/-- A pong for a different session id leaves an entry where it was. -/
theorem pong_mem_of_ne (id : String) (now : Nat) (st : HbState) (e : String × HbSession)
    (hne : e.1 ≠ id) (he : e ∈ (heartbeatPong id now st).sessions) : e ∈ st.sessions := by
  simp only [heartbeatPong, List.mem_map] at he
  obtain ⟨e0, he0, hupd⟩ := he
  by_cases h0 : e0.1 = id
  · rw [if_pos h0] at hupd
    rw [← hupd] at hne
    exact absurd h0 hne
  · rw [if_neg h0] at hupd
    rw [← hupd]
    exact he0

/-- Pongs that never name session `k` leave every entry of `k` where it
was. -/
theorem applyPongs_mem_of_ne :
    ∀ (ps : List (String × Nat)) (st : HbState) (e : String × HbSession),
      (∀ p ∈ ps, p.1 ≠ e.1) → e ∈ (applyPongs ps st).sessions → e ∈ st.sessions := by
  intro ps
  induction ps with
  | nil => intro st e _ he; exact he
  | cons p ps ih =>
    intro st e hne he
    have h1 : e ∈ (heartbeatPong p.1 p.2 st).sessions :=
      ih (heartbeatPong p.1 p.2 st) e (fun q hq => hne q (by simp [hq])) he
    exact pong_mem_of_ne p.1 p.2 st e (fun h => hne p (by simp) (h ▸ rfl)) h1

/-- Every session surviving a tick has `last_pong_at = "pending"`. -/
theorem tick_all_pending (pt now : Nat) (s : HbState) :
    ∀ e ∈ (heartbeatTick pt now s).1.sessions, e.2.lastPong = PongState.pending := by
  intro e he
  simp only [heartbeatTick, List.mem_map, List.mem_filter] at he
  obtain ⟨e0, _, rfl⟩ := he
  rfl

/-- C10: spec-modelled heartbeat.  (i) `hbKeep` is exactly the claim's
condition: a session is terminated iff its `last_pong_at` is "pending" or a
timestamp past `deadline = lastPingAt + pingTimeout`; (ii) each such
session gets a `terminated` action on the tick; (iii) each remaining
session is kept with `last_pong_at = "pending"` and is pinged when its
socket is open; (iv) every surviving entry is "pending"; (v) hence a
session that answers no ping between two consecutive ticks is no longer in
the session table after the second one, whatever pongs the other sessions
deliver; (vi) the tick stores `lastPingAt = now`. -/
theorem c10_heartbeat :
    (∀ (deadline : Nat) (sess : HbSession),
      hbKeep deadline sess = false ↔
        sess.lastPong = PongState.pending ∨
          ∃ t, sess.lastPong = PongState.pongAt t ∧ deadline < t) ∧
    (∀ (pt now : Nat) (s : HbState) (e : String × HbSession),
      e ∈ s.sessions → hbKeep (s.lastPingAt + pt) e.2 = false →
      HbAction.terminated e.1 ∈ (heartbeatTick pt now s).2) ∧
    (∀ (pt now : Nat) (s : HbState) (e : String × HbSession),
      e ∈ s.sessions → hbKeep (s.lastPingAt + pt) e.2 = true →
      (e.1, HbSession.mk PongState.pending e.2.sockOpen) ∈ (heartbeatTick pt now s).1.sessions ∧
        (e.2.sockOpen = true → HbAction.pinged e.1 ∈ (heartbeatTick pt now s).2)) ∧
    (∀ (pt now : Nat) (s : HbState),
      ∀ e ∈ (heartbeatTick pt now s).1.sessions, e.2.lastPong = PongState.pending) ∧
    (∀ (pt n1 n2 : Nat) (s : HbState) (pongs : List (String × Nat)) (k : String),
      (∀ p ∈ pongs, p.1 ≠ k) →
      ∀ e ∈ (heartbeatTick pt n2 (applyPongs pongs (heartbeatTick pt n1 s).1)).1.sessions,
        e.1 ≠ k) ∧
    (∀ (pt now : Nat) (s : HbState), (heartbeatTick pt now s).1.lastPingAt = now) := by
  refine ⟨?_, ?_, ?_, tick_all_pending, ?_, ?_⟩
  · intro deadline sess
    cases hp : sess.lastPong with
    | pending => simp [hbKeep, hp]
    | pongAt t =>
      simp [hbKeep, hp]
  · intro pt now s e he hterm
    simp only [heartbeatTick, List.mem_flatten, List.mem_map]
    refine ⟨[HbAction.terminated e.1], ⟨e, he, ?_⟩, by simp⟩
    simp [hterm]
  · intro pt now s e he hkeep
    constructor
    · simp only [heartbeatTick, List.mem_map, List.mem_filter]
      exact ⟨e, ⟨he, hkeep⟩, rfl⟩
    · intro hopen
      simp only [heartbeatTick, List.mem_flatten, List.mem_map]
      refine ⟨[HbAction.pinged e.1], ⟨e, he, ?_⟩, by simp⟩
      simp [hkeep, hopen]
  · intro pt n1 n2 s pongs k hk e he hek
    simp only [heartbeatTick, List.mem_map, List.mem_filter] at he
    obtain ⟨e0, ⟨he0, hkeep⟩, rfl⟩ := he
    have h0k : e0.1 = k := hek
    have he0' : e0 ∈ (heartbeatTick pt n1 s).1.sessions :=
      applyPongs_mem_of_ne pongs (heartbeatTick pt n1 s).1 e0
        (fun p hp => h0k ▸ hk p hp) he0
    have hpend := tick_all_pending pt n1 s e0 he0'
    rw [hbKeep, hpend] at hkeep
    cases hkeep
  · intro pt now s
    rfl
